import Mathlib

/-!
Verification of the `afw` robust-statistics core and two library components
(`cameraGeom::Detector`, `table::io::FitsReader`).

The statistics engine (`StatisticsControl`, the accumulation passes, the
result object) is specified in the design document but its implementation
file is not part of the excerpted sources; following the document, those
components are modelled here directly from the specification's words and
each such definition says so in its doc comment.  `Detector.cc` and
`FitsReader.cc` are present and their definitions below are direct
translations of the C++.

Real-valued sample data is embedded as `ℚ`: every operation of the engine
except the final square roots (STDEV and the error terms) is rational, and
square roots are kept symbolically in a `StatVal` and interpreted into `ℝ`
at the boundary (`StatVal.toReal`).
-/

set_option allowUnsafeReducibility true

attribute [semireducible] Rat.add Rat.mul Rat.inv Rat.sub Rat.ofScientific

deriving instance DecidableEq for Except

namespace Afw

/-- Statistic identifiers requested from the engine, one per bit of the
C++ `Property` bitmask (`NPOINT | MEAN | ...` in the example driver).
`ERRORS` is the modifier that enables error propagation. -/
inductive Property where
  | NPOINT
  | MEAN
  | STDEV
  | VARIANCE
  | MEDIAN
  | IQRANGE
  | MEANCLIP
  | STDEVCLIP
  | VARIANCECLIP
  | MIN
  | MAX
  | SUM
  | ERRORS
  deriving DecidableEq

/-- Modelled from the spec: `StatisticsControl` is "a configuration value
object holding algorithm parameters (clip iterations, clip threshold,
mask-bit filters, weighting mode, NaN handling policy)"; its implementation
file is not among the excerpted sources.  `numSigmaClip` is the clip
threshold in standard deviations, `numIter` the number of clipping passes,
`andMask` the mask bits that exclude a sample. -/
structure StatisticsControl where
  numSigmaClip : ℚ
  numIter : Int
  andMask : Nat
  noGoodPixelsMask : Nat
  weighted : Bool
  weightedIsSet : Bool
  nanSafe : Bool
  deriving DecidableEq

/-- Modelled from the spec: defaults `numSigmaClip = 3.0`, `numIter = 3`. -/
def defaultStatisticsControl : StatisticsControl :=
  { numSigmaClip := 3
    numIter := 3
    andMask := 0
    noGoodPixelsMask := 0
    weighted := false
    weightedIsSet := false
    nanSafe := false }

/-- Error raised by control mutators on out-of-range arguments. -/
inductive ControlError where
  | invalidParameter
  deriving DecidableEq

/-- Modelled from the spec: the mutator "validates ranges on set
(`numIter < 0` ... fails with `InvalidParameter`)". The control is a value
object, so a failed set returns the error and the caller's control is
untouched. -/
def StatisticsControl.setNumIter (c : StatisticsControl) (n : Int) :
    Except ControlError StatisticsControl :=
  if n < 0 then .error .invalidParameter else .ok { c with numIter := n }

/-- Modelled from the spec: the mutator "validates ranges on set
(... `numSigmaClip <= 0` fails with `InvalidParameter`)". -/
def StatisticsControl.setNumSigmaClip (c : StatisticsControl) (q : ℚ) :
    Except ControlError StatisticsControl :=
  if q ≤ 0 then .error .invalidParameter else .ok { c with numSigmaClip := q }

/-- The documented control invariant: `numSigmaClip > 0`; `numIter >= 0`. -/
def controlInvariant (c : StatisticsControl) : Prop :=
  0 < c.numSigmaClip ∧ 0 ≤ c.numIter

instance (c : StatisticsControl) : Decidable (controlInvariant c) := by
  unfold controlInvariant; infer_instance

/-- Modelled from the spec: the conceptual per-pixel record
`{value, isMasked, variance (optional), weight (optional)}`; the weight is
not stored but derived during the filter pass, so it is not a field here.
`isMasked` carries the sample's mask bits (the filter rule is
`isMasked & andMask != 0`).  Values are embedded as `ℚ`, so the NaN/Inf
cases of the `nanSafe` filter have no inhabitants in this model. -/
structure Sample where
  value : ℚ
  isMasked : Nat
  variance : Option ℚ
  deriving DecidableEq

/-- Modelled from the spec: "exclude any sample where
`isMasked & andMask != 0`". -/
def excludedByMask (c : StatisticsControl) (s : Sample) : Bool :=
  s.isMasked &&& c.andMask != 0

/-- Modelled from the spec: "weight = 1.0 unless `weighted` is enabled, in
which case weight = `1/variance` (falls back to 1.0 if variance ≤ 0 or
absent)". -/
def sampleWeight (c : StatisticsControl) (s : Sample) : ℚ :=
  if c.weighted then
    match s.variance with
    | some v => if v ≤ 0 then 1 else 1 / v
    | none => 1
  else 1

/-- Modelled from the spec: the filter pass, which builds the "working list
of `(value, weight)` pairs" from the samples that are not mask-excluded. -/
def filterSamples (c : StatisticsControl) (src : List Sample) : List (ℚ × ℚ) :=
  (src.filter (fun s => ! excludedByMask c s)).map
    (fun s => (s.value, sampleWeight c s))

/-- Total weight of the working list (the "effective N"). -/
def wTotal (l : List (ℚ × ℚ)) : ℚ := (l.map Prod.snd).sum

/-- Modelled from the spec: SUM, the weighted sum. -/
def wSum (l : List (ℚ × ℚ)) : ℚ := (l.map (fun p => p.2 * p.1)).sum

/-- Modelled from the spec: MEAN, "weighted sum / total weight". -/
def wMean (l : List (ℚ × ℚ)) : ℚ := wSum l / wTotal l

/-- Modelled from the spec: VARIANCE, "weighted sum of squared deviations
from mean / (effective N − 1)"; undefined (`none`, reported as NaN) when the
effective N does not exceed 1, covering both the empty and the
single-unit-weight case. -/
def wVariance (l : List (ℚ × ℚ)) : Option ℚ :=
  if wTotal l ≤ 1 then none
  else some ((l.map (fun p => p.2 * (p.1 - wMean l) ^ 2)).sum / (wTotal l - 1))

/-- MIN of a value list; `none` on the empty list. -/
def listMin : List ℚ → Option ℚ
  | [] => none
  | x :: xs =>
    some (match listMin xs with
          | none => x
          | some m => min x m)

/-- MAX of a value list; `none` on the empty list. -/
def listMax : List ℚ → Option ℚ
  | [] => none
  | x :: xs =>
    some (match listMax xs with
          | none => x
          | some m => max x m)

/-- Modelled from the spec: the "sorted copy of the filtered (unclipped)
value list" used for the order statistics. -/
def sortedValues (l : List (ℚ × ℚ)) : List ℚ :=
  (l.map Prod.fst).insertionSort (· ≤ ·)

/-- Modelled from the spec: MEDIAN is "the middle element (average of two
middle elements for even count)" of the sorted value list. -/
def medianOf (s : List ℚ) : Option ℚ :=
  if s.length % 2 = 1 then s[s.length / 2]?
  else
    match s[s.length / 2 - 1]?, s[s.length / 2]? with
    | some a, some b => some ((a + b) / 2)
    | _, _ => none

/-- Modelled from the spec: the value at quantile `q` of a sorted list,
"using linear interpolation between ranks when the percentile falls between
two indices" (the spec leaves the exact interpolation rule open; this is
the linear rule at rank `q·(n−1)`). -/
def percentileOf (s : List ℚ) (q : ℚ) : Option ℚ :=
  match s with
  | [] => none
  | _ =>
    let r : ℚ := q * ((s.length : ℚ) - 1)
    let i : Nat := r.floor.toNat
    match s[i]?, s[i + 1]? with
    | some a, some b => some (a + (r - r.floor) * (b - a))
    | some a, none => some a
    | none, _ => none

/-- Modelled from the spec: IQRANGE = 75th percentile − 25th percentile of
the sorted value list. -/
def iqrangeOf (s : List ℚ) : Option ℚ :=
  match percentileOf s (3 / 4), percentileOf s (1 / 4) with
  | some hi, some lo => some (hi - lo)
  | _, _ => none

/-- Modelled from the spec: one sigma-clipping iteration over the retained
working list — compute mean and stdev of the current list, then "retain
only samples within bounds `[mean − numSigmaClip·stdev,
mean + numSigmaClip·stdev]`".  The bound is used in squared form
`(x − mean)² ≤ numSigmaClip²·variance`, which is equivalent since
`stdev = √variance ≥ 0` and `numSigmaClip > 0`; when the variance is
undefined no clipping is possible and the list is kept. -/
def clipStep (c : StatisticsControl) (l : List (ℚ × ℚ)) : List (ℚ × ℚ) :=
  match wVariance l with
  | none => l
  | some v =>
    l.filter (fun p => decide ((p.1 - wMean l) ^ 2 ≤ c.numSigmaClip ^ 2 * v))

/-- Modelled from the spec: "repeat up to `numIter` times", terminating
early "if no sample was newly excluded (fixed point)".  (An emptied
retained set is a fixed point of `clipStep` as well, so early termination
on it is subsumed.) -/
def clipIterate (c : StatisticsControl) : Nat → List (ℚ × ℚ) → List (ℚ × ℚ)
  | 0, l => l
  | k + 1, l =>
    let l2 := clipStep c l
    if l2 = l then l else clipIterate c k l2

/-- A reported statistic value: a rational, the real square root of a
rational (STDEV-shaped results), or NaN ("undefined/unavailable"). -/
inductive StatVal where
  | nan
  | val (q : ℚ)
  | sqrtVal (q : ℚ)
  deriving DecidableEq

/-- A possibly-undefined rational as a reported value. -/
def ratStat : Option ℚ → StatVal
  | none => .nan
  | some q => .val q

/-- The square root of a possibly-undefined rational as a reported value. -/
def sqrtStat : Option ℚ → StatVal
  | none => .nan
  | some q => .sqrtVal q

/-- Interpretation of a reported value into the reals; `none` is NaN. -/
noncomputable def StatVal.toReal : StatVal → Option ℝ
  | .nan => none
  | .val q => some (q : ℝ)
  | .sqrtVal q => some (Real.sqrt (q : ℝ))

/-- Modelled from the spec: the error taxonomy of result lookups —
`NotComputed` (called `InvalidRequest` in the data-model section) when a
property was never requested at construction, `ErrorUnavailable` when an
error term is analytically undefined for a statistic. -/
inductive StatError where
  | notComputed
  | errorUnavailable
  deriving DecidableEq

/-- Modelled from the spec: `StatisticsResult`, the immutable "mapping from
StatisticsProperty → (value, error)" produced by the engine, together with
the "no good pixels" condition flag.  The clipped retained count is kept
for the clipped error terms. -/
structure StatisticsResult where
  requested : List Property
  noGoodSamples : Bool
  npoint : Nat
  npointclip : Nat
  sum : Option ℚ
  mean : Option ℚ
  variance : Option ℚ
  minval : Option ℚ
  maxval : Option ℚ
  median : Option ℚ
  iqrange : Option ℚ
  meanclip : Option ℚ
  varianceclip : Option ℚ
  deriving DecidableEq

/-- Modelled from the spec: `getValue(property)` — "Fails with
`NotComputed` if the property was never requested at construction";
otherwise the stored value, NaN when undefined (in particular every value
is NaN under the `NoGoodSamples` condition). -/
def StatisticsResult.getValue (r : StatisticsResult) (p : Property) :
    Except StatError StatVal :=
  if p ∈ r.requested then
    .ok (match p with
      | .NPOINT => if r.noGoodSamples then .nan else .val (r.npoint : ℚ)
      | .MEAN => ratStat r.mean
      | .STDEV => sqrtStat r.variance
      | .VARIANCE => ratStat r.variance
      | .MEDIAN => ratStat r.median
      | .IQRANGE => ratStat r.iqrange
      | .MEANCLIP => ratStat r.meanclip
      | .STDEVCLIP => sqrtStat r.varianceclip
      | .VARIANCECLIP => ratStat r.varianceclip
      | .MIN => ratStat r.minval
      | .MAX => ratStat r.maxval
      | .SUM => ratStat r.sum
      | .ERRORS => .nan)
  else .error .notComputed

/-- Modelled from the spec: the statistics with an analytic error term —
`error(MEAN)`, `error(STDEV)` and their clipped analogues; for the others
an error query fails with `ErrorUnavailable`. -/
def hasAnalyticError : Property → Bool
  | .MEAN | .STDEV | .MEANCLIP | .STDEVCLIP => true
  | _ => false

/-- Modelled from the spec: `getError(property)` — `NotComputed` when the
property was never requested, `ErrorUnavailable` when no error term is
defined for it (or error propagation was not enabled via `ERRORS`);
otherwise `error(MEAN) = stdev/√N = √(variance/N)` and
`error(STDEV) = stdev/√(2(N−1))`, with the clipped N and variance for the
clipped statistics. -/
def StatisticsResult.getError (r : StatisticsResult) (p : Property) :
    Except StatError StatVal :=
  if p ∈ r.requested then
    if Property.ERRORS ∈ r.requested ∧ hasAnalyticError p = true then
      .ok (match p with
        | .MEAN =>
          match r.variance with
          | some v => if r.npoint = 0 then .nan else .sqrtVal (v / (r.npoint : ℚ))
          | none => .nan
        | .STDEV =>
          match r.variance with
          | some v =>
            if r.npoint ≤ 1 then .nan
            else .sqrtVal (v / (2 * ((r.npoint : ℚ) - 1)))
          | none => .nan
        | .MEANCLIP =>
          match r.varianceclip with
          | some v =>
            if r.npointclip = 0 then .nan else .sqrtVal (v / (r.npointclip : ℚ))
          | none => .nan
        | .STDEVCLIP =>
          match r.varianceclip with
          | some v =>
            if r.npointclip ≤ 1 then .nan
            else .sqrtVal (v / (2 * ((r.npointclip : ℚ) - 1)))
          | none => .nan
        | _ => .nan)
    else .error .errorUnavailable
  else .error .notComputed

/-- Modelled from the spec: the engine.  Filter pass, base accumulation,
clipping passes (run when `numIter > 1`), order statistics over the sorted
copy of the filtered values; on an empty filtered set the result carries
the no-good-pixels condition and undefined values instead of throwing. -/
def computeStatistics (c : StatisticsControl) (req : List Property)
    (src : List Sample) : StatisticsResult :=
  let l := filterSamples c src
  let s := sortedValues l
  let clipped := if 1 < c.numIter then clipIterate c c.numIter.toNat l else l
  { requested := req
    noGoodSamples := l.isEmpty
    npoint := l.length
    npointclip := clipped.length
    sum := if l.isEmpty then none else some (wSum l)
    mean := if l.isEmpty then none else some (wMean l)
    variance := wVariance l
    minval := listMin (l.map Prod.fst)
    maxval := listMax (l.map Prod.fst)
    median := medianOf s
    iqrange := iqrangeOf s
    meanclip := if clipped.isEmpty then none else some (wMean clipped)
    varianceclip := wVariance clipped }

/-- An amplifier record as `Detector.cc` uses it: the constructor and the
lookups touch only `getName()`; `payload` stands for the record's remaining
fields so that two records with equal names need not be equal. -/
structure AmpInfoRecord where
  name : String
  payload : Nat
  deriving DecidableEq

/-- The crosstalk coefficient matrix: `Detector.cc` reads only its 2-D
shape (`getShape()` and, through `hasCrosstalk`, its emptiness). -/
structure CrosstalkMatrix where
  shape0 : Nat
  shape1 : Nat
  deriving DecidableEq

/-- `hasCrosstalk` is declared in `Detector.h`, which is not among the
excerpted sources; modelled as "the crosstalk matrix is non-empty", i.e.
it holds at least one element (an ndarray is empty iff its element count
is zero). -/
def hasCrosstalk (m : CrosstalkMatrix) : Bool :=
  m.shape0 * m.shape1 != 0

/-- The error every validation branch of `Detector::Detector` throws
(`pexExcept::InvalidParameterError`). -/
inductive GeomError where
  | invalidParameterError
  deriving DecidableEq

/-- The `_ampNameIterMap` construction loop of `Detector::Detector`:
`std::map::insert` in catalog order, an insert whose key is already
present doing nothing (first record with a given name wins).  `seen` is
the key set of the map built so far. -/
def buildAmpNameMapAux (seen : List String) :
    List AmpInfoRecord → List (String × AmpInfoRecord)
  | [] => []
  | a :: rest =>
    if a.name ∈ seen then buildAmpNameMapAux seen rest
    else (a.name, a) :: buildAmpNameMapAux (a.name :: seen) rest

/-- The name→record map built over the whole amplifier catalog. -/
def buildAmpNameMap (catalog : List AmpInfoRecord) :
    List (String × AmpInfoRecord) :=
  buildAmpNameMapAux [] catalog

/-- The `Detector` fields `Detector.cc` reads; the geometry fields (bbox,
orientation, pixel size, transform map), which the constructor stores
without validating, are omitted. -/
structure Detector where
  name : String
  id : Int
  serial : String
  ampInfoCatalog : List AmpInfoRecord
  ampNameIterMap : List (String × AmpInfoRecord)
  crosstalk : CrosstalkMatrix
  deriving DecidableEq

/-- The validating `Detector::Detector` constructor body: build the
name→record map and throw `InvalidParameterError` when some amplifier name
repeats (detected as `map.size() != catalog.size()`), when a non-empty
crosstalk matrix is not square, or when its side differs from the number
of amplifiers. -/
def mkDetector (name : String) (id : Int) (serial : String)
    (catalog : List AmpInfoRecord) (crosstalk : CrosstalkMatrix) :
    Except GeomError Detector :=
  let m := buildAmpNameMap catalog
  if m.length ≠ catalog.length then .error .invalidParameterError
  else if hasCrosstalk crosstalk ∧ crosstalk.shape0 ≠ crosstalk.shape1 then
    .error .invalidParameterError
  else if hasCrosstalk crosstalk ∧ crosstalk.shape0 ≠ catalog.length then
    .error .invalidParameterError
  else .ok ⟨name, id, serial, catalog, m, crosstalk⟩

/-- `Detector::_get(int i)`: a negative index is shifted by the catalog
size (`i = _ampInfoCatalog.size() + i`), then the catalog is accessed at
the resulting position; an access outside the catalog has no record to
return (`none`, the bounds-checked `get` failing). -/
def Detector._get (d : Detector) (i : Int) : Option AmpInfoRecord :=
  let j := if i < 0 then (d.ampInfoCatalog.length : Int) + i else i
  if j < 0 then none else d.ampInfoCatalog[j.toNat]?

/-- A registered FITS reader object; the C++ registry stores pointers, so
identity is all that matters and `tag` stands for it. -/
structure FitsReader where
  tag : Nat
  deriving DecidableEq

/-- The reader registry (`std::map<std::string, FitsReader const*>`),
embedded as an association list where the first binding of a key is its
current one. -/
abbrev Registry := List (String × FitsReader)

/-- `FitsReader::FitsReader(name)`: `getRegistry()[name] = this`, i.e.
insert-or-overwrite of the binding for `name`; prepending shadows any
older binding of the same key. -/
def registerFitsReader (reg : Registry) (name : String) (r : FitsReader) :
    Registry :=
  (name, r) :: reg

/-- The error `_lookupFitsReader` throws
(`lsst::pex::exceptions::NotFoundError`). -/
inductive TableIoError where
  | notFoundError
  deriving DecidableEq

/-- The metadata as `_lookupFitsReader` reads it: only the `AFW_TYPE`
keyword of the `PropertyList` is consulted, absent when the header does
not carry it. -/
structure PropertyList where
  afwType : Option String
  deriving DecidableEq

/-- `FitsReader::_lookupFitsReader`: read `AFW_TYPE` with default
`"BASE"`, return the registered reader of that name, and throw
`NotFoundError` when none is registered. -/
def FitsReader._lookupFitsReader (reg : Registry) (metadata : PropertyList) :
    Except TableIoError FitsReader :=
  let name := metadata.afwType.getD "BASE"
  match reg.lookup name with
  | some r => .ok r
  | none => .error .notFoundError

/-- `static FitsReader const baseFitsReader("BASE")`: the reader object
registered under `"BASE"` at static-initialization time. -/
def baseFitsReader : FitsReader := ⟨0⟩

/-- The registry as static initialization leaves it: empty, then
`baseFitsReader` registered under `"BASE"`. -/
def initialRegistry : Registry :=
  registerFitsReader [] "BASE" baseFitsReader

/-- Any registry state the program can reach: the initial one followed by
an arbitrary sequence of further `FitsReader` constructions. -/
def reachableRegistry (regs : List (String × FitsReader)) : Registry :=
  regs.foldl (fun reg nr => registerFitsReader reg nr.1 nr.2) initialRegistry

/-! ### Helper lemmas -/

theorem filterSamples_filter (c : StatisticsControl) (src : List Sample) :
    filterSamples c (src.filter (fun s => ! excludedByMask c s)) =
      filterSamples c src := by
  unfold filterSamples
  rw [List.filter_filter]
  simp

theorem clipStep_nil (c : StatisticsControl) : clipStep c [] = [] := by
  have h : wVariance [] = none := by
    unfold wVariance wTotal
    simp
  unfold clipStep
  rw [h]

theorem clipIterate_nil (c : StatisticsControl) (k : Nat) :
    clipIterate c k [] = [] := by
  induction k with
  | zero => rfl
  | succ n ih =>
    unfold clipIterate
    rw [clipStep_nil]
    simp

/-! ### Claims -/

/-- C1: a sample whose mask bits intersect `andMask` never influences any
reported statistic: over any control, requested set and sample source, the
engine's whole result (hence every value and error it reports) computed on
the full source equals the one computed on the source with every
mask-excluded sample removed, whatever values those samples carry. -/
theorem masked_samples_never_influence (c : StatisticsControl)
    (req : List Property) (src : List Sample) :
    computeStatistics c req src =
        computeStatistics c req (src.filter (fun s => ! excludedByMask c s)) ∧
      ∀ p : Property,
        (computeStatistics c req src).getValue p =
            (computeStatistics c req
              (src.filter (fun s => ! excludedByMask c s))).getValue p ∧
          (computeStatistics c req src).getError p =
            (computeStatistics c req
              (src.filter (fun s => ! excludedByMask c s))).getError p := by
  have h : computeStatistics c req src =
      computeStatistics c req (src.filter (fun s => ! excludedByMask c s)) := by
    unfold computeStatistics
    rw [filterSamples_filter]
  exact ⟨h, fun p => ⟨by rw [h], by rw [h]⟩⟩

/-- C3: sigma-clipping is idempotent at its fixed point: when a clipping
iteration excludes no sample (`clipStep c l = l`), a further step returns
the same retained set, any number of further iterations leaves the
retained set unchanged, and the clipped mean and variance (MEANCLIP and
VARIANCECLIP) are unchanged. -/
theorem clip_fixed_point_idempotent (c : StatisticsControl)
    (l : List (ℚ × ℚ)) (h : clipStep c l = l) :
    clipStep c (clipStep c l) = clipStep c l ∧
      (∀ k, clipIterate c k l = l) ∧
      wMean (clipStep c l) = wMean l ∧
      wVariance (clipStep c l) = wVariance l := by
  refine ⟨by simp only [h], ?_, by simp only [h], by simp only [h]⟩
  intro k
  induction k with
  | zero => rfl
  | succ n ih =>
    show (if clipStep c l = l then l else clipIterate c n (clipStep c l)) = l
    rw [if_pos h]

/-- C3 witness: a concrete converged retained set (three unit-weight
values within every clip bound of the default control). -/
theorem clip_fixed_point_idempotent_witness :
    clipIterate defaultStatisticsControl 5
        [((1 : ℚ), (1 : ℚ)), (2, 1), (3, 1)] =
      [((1 : ℚ), (1 : ℚ)), (2, 1), (3, 1)] :=
  (clip_fixed_point_idempotent defaultStatisticsControl
    [((1 : ℚ), (1 : ℚ)), (2, 1), (3, 1)] (by decide)).2.1 5

/-- C6: the control mutators validate at set time: `setNumIter` rejects a
negative argument with `InvalidParameter` and accepts any other,
`setNumSigmaClip` rejects a non-positive argument and accepts any other
(the control is a value, so a rejected set leaves the caller's control as
it was); the default control satisfies the documented invariant
`numSigmaClip > 0 ∧ numIter ≥ 0` and both mutators preserve it, so every
successfully constructed control satisfies it. -/
theorem control_setters_validate (c : StatisticsControl) (n : Int) (q : ℚ) :
    (n < 0 → c.setNumIter n = .error .invalidParameter) ∧
      (0 ≤ n → c.setNumIter n = .ok { c with numIter := n }) ∧
      (q ≤ 0 → c.setNumSigmaClip q = .error .invalidParameter) ∧
      (0 < q → c.setNumSigmaClip q = .ok { c with numSigmaClip := q }) ∧
      controlInvariant defaultStatisticsControl ∧
      (∀ c', controlInvariant c → c.setNumIter n = .ok c' →
        controlInvariant c') ∧
      (∀ c', controlInvariant c → c.setNumSigmaClip q = .ok c' →
        controlInvariant c') := by
  unfold StatisticsControl.setNumIter StatisticsControl.setNumSigmaClip
  refine ⟨fun h => by rw [if_pos h], fun h => by rw [if_neg (by omega)],
    fun h => by rw [if_pos h], fun h => by rw [if_neg (by simpa using h.not_le)],
    by decide, ?_, ?_⟩
  · intro c' hc hok
    by_cases h : n < 0
    · rw [if_pos h] at hok
      exact absurd hok (by simp)
    · rw [if_neg h] at hok
      cases hok
      exact ⟨hc.1, not_lt.mp h⟩
  · intro c' hc hok
    by_cases h : q ≤ 0
    · rw [if_pos h] at hok
      exact absurd hok (by simp)
    · rw [if_neg h] at hok
      cases hok
      exact ⟨lt_of_not_le h, hc.2⟩

/-- C6 witness: at the default control, `setNumIter (-1)` is rejected and
`setNumSigmaClip 5` is accepted with the field updated. -/
theorem control_setters_validate_witness :
    defaultStatisticsControl.setNumIter (-1) = .error .invalidParameter ∧
      defaultStatisticsControl.setNumSigmaClip 5 =
        .ok { defaultStatisticsControl with numSigmaClip := 5 } :=
  ⟨(control_setters_validate defaultStatisticsControl (-1) 5).1 (by decide),
    (control_setters_validate defaultStatisticsControl (-1) 5).2.2.2.1
      (by decide)⟩

/-- C7: on every result (the lookups are pure, so no query can modify the
object), a property that was not requested at construction fails with the
never-requested error (`NotComputed`, the `InvalidRequest` of the data
model) on both `getValue` and `getError`, while a requested property's
`getValue` succeeds and its `getError` never reports `NotComputed` — it
either succeeds or fails with `ErrorUnavailable`. -/
theorem result_lookup_gating (r : StatisticsResult) (p : Property) :
    (p ∉ r.requested →
      r.getValue p = .error .notComputed ∧
        r.getError p = .error .notComputed) ∧
      (p ∈ r.requested →
        (∃ v, r.getValue p = .ok v) ∧
          (r.getError p = .error .errorUnavailable ∨
            ∃ e, r.getError p = .ok e)) := by
  unfold StatisticsResult.getValue StatisticsResult.getError
  constructor
  · intro h
    rw [if_neg h, if_neg h]
    exact ⟨rfl, rfl⟩
  · intro h
    rw [if_pos h, if_pos h]
    refine ⟨⟨_, rfl⟩, ?_⟩
    by_cases h2 : Property.ERRORS ∈ r.requested ∧ hasAnalyticError p = true
    · rw [if_pos h2]
      exact Or.inr ⟨_, rfl⟩
    · rw [if_neg h2]
      exact Or.inl rfl

/-- A concrete result object used to witness the lookup gating: MEAN and
ERRORS were requested, MIN was not. -/
def gatingSampleResult : StatisticsResult :=
  { requested := [Property.MEAN, Property.ERRORS]
    noGoodSamples := false
    npoint := 2
    npointclip := 2
    sum := some 3
    mean := some (3 / 2)
    variance := some (1 / 2)
    minval := some 1
    maxval := some 2
    median := some (3 / 2)
    iqrange := some 1
    meanclip := some (3 / 2)
    varianceclip := some (1 / 2)
    }

/-- C7 witness: on `gatingSampleResult`, looking up the never-requested
MIN fails with `NotComputed` and looking up the requested MEAN succeeds. -/
theorem result_lookup_gating_witness :
    (gatingSampleResult.getValue .MIN = .error .notComputed ∧
        gatingSampleResult.getError .MIN = .error .notComputed) ∧
      ∃ v, gatingSampleResult.getValue .MEAN = .ok v :=
  ⟨(result_lookup_gating gatingSampleResult .MIN).1 (by decide),
    ((result_lookup_gating gatingSampleResult .MEAN).2 (by decide)).1⟩

/-- C9: `Detector::_get(int)` counts negative indices from the end: for a
detector with `n` amplifiers, `-n ≤ i < 0` gives the same record as
`_get(n + i)`, and `0 ≤ i < n` returns the `i`-th record of the
catalog. -/
theorem detector_get_negative_indexing (d : Detector) (i : Int) :
    (-(d.ampInfoCatalog.length : Int) ≤ i → i < 0 →
      d._get i = d._get ((d.ampInfoCatalog.length : Int) + i)) ∧
      (0 ≤ i → i < (d.ampInfoCatalog.length : Int) →
        ∃ h : i.toNat < d.ampInfoCatalog.length,
          d._get i = some (d.ampInfoCatalog.get ⟨i.toNat, h⟩)) := by
  constructor
  · intro h1 h2
    have e1 : d._get i =
        if ((d.ampInfoCatalog.length : Int) + i) < 0 then none
        else d.ampInfoCatalog[((d.ampInfoCatalog.length : Int) + i).toNat]? := by
      simp only [Detector._get]
      rw [if_pos h2]
    have e2 : d._get ((d.ampInfoCatalog.length : Int) + i) =
        if ((d.ampInfoCatalog.length : Int) + i) < 0 then none
        else d.ampInfoCatalog[((d.ampInfoCatalog.length : Int) + i).toNat]? := by
      simp only [Detector._get]
      rw [if_neg (by omega : ¬ ((d.ampInfoCatalog.length : Int) + i < 0))]
    rw [e1, e2]
  · intro h1 h2
    have hlt : i.toNat < d.ampInfoCatalog.length := by omega
    refine ⟨hlt, ?_⟩
    simp only [Detector._get]
    rw [if_neg (not_lt.mpr h1), if_neg (not_lt.mpr h1),
      List.getElem?_eq_getElem hlt, List.get_eq_getElem]

/-- A concrete two-amplifier detector used to witness the index lookup. -/
def indexSampleDetector : Detector :=
  ⟨"det", 1, "ser", [⟨"A", 0⟩, ⟨"B", 1⟩],
    buildAmpNameMap [⟨"A", 0⟩, ⟨"B", 1⟩], ⟨2, 2⟩⟩

/-- C9 witness: on a two-amplifier detector, `_get (-1)` equals
`_get (2 + (-1))`, and `_get 1` is the second catalog record. -/
theorem detector_get_negative_indexing_witness :
    indexSampleDetector._get (-1) =
        indexSampleDetector._get
          ((indexSampleDetector.ampInfoCatalog.length : Int) + (-1)) ∧
      ∃ h : (1 : Int).toNat < indexSampleDetector.ampInfoCatalog.length,
        indexSampleDetector._get 1 =
          some (indexSampleDetector.ampInfoCatalog.get ⟨(1 : Int).toNat, h⟩) :=
  ⟨(detector_get_negative_indexing indexSampleDetector (-1)).1
      (by decide) (by decide),
    (detector_get_negative_indexing indexSampleDetector 1).2
      (by decide) (by decide)⟩

theorem reachable_lookup_base (regs : List (String × FitsReader)) :
    ∃ rr, (reachableRegistry regs).lookup "BASE" = some rr := by
  unfold reachableRegistry
  suffices h : ∀ reg : Registry, (∃ rr, reg.lookup "BASE" = some rr) →
      ∃ rr, (regs.foldl (fun reg nr => registerFitsReader reg nr.1 nr.2)
        reg).lookup "BASE" = some rr by
    exact h initialRegistry ⟨baseFitsReader, rfl⟩
  induction regs with
  | nil => exact fun reg h => h
  | cons nr rest ih =>
    intro reg h
    apply ih
    rcases h with ⟨rr, hrr⟩
    unfold registerFitsReader
    simp only [List.lookup]
    by_cases he : ("BASE" : String) = nr.1
    · rw [show ("BASE" == nr.1) = true from beq_iff_eq.mpr he]
      exact ⟨nr.2, rfl⟩
    · rw [show ("BASE" == nr.1) = false from beq_eq_false_iff_ne.mpr he]
      exact ⟨rr, hrr⟩

/-- C10: `_lookupFitsReader` reads `AFW_TYPE` with default `"BASE"` and
returns the registered reader of that name iff one exists, failing with
`NotFoundError` otherwise; on every registry reachable from static
initialization (where a `"BASE"` reader is registered), lookup on metadata
without `AFW_TYPE` succeeds. -/
theorem fits_reader_lookup (md : PropertyList) (reg : Registry)
    (r : FitsReader) (regs : List (String × FitsReader)) :
    (FitsReader._lookupFitsReader reg md = .ok r ↔
        reg.lookup (md.afwType.getD "BASE") = some r) ∧
      (FitsReader._lookupFitsReader reg md = .error .notFoundError ↔
        reg.lookup (md.afwType.getD "BASE") = none) ∧
      (md.afwType = none →
        ∃ rr, FitsReader._lookupFitsReader (reachableRegistry regs) md =
          .ok rr) := by
  have key : ∀ rg : Registry, FitsReader._lookupFitsReader rg md =
      (match rg.lookup (md.afwType.getD "BASE") with
        | some rr => Except.ok rr
        | none => Except.error TableIoError.notFoundError) :=
    fun rg => rfl
  refine ⟨?_, ?_, ?_⟩
  · rw [key reg]
    cases hl : reg.lookup (md.afwType.getD "BASE") <;> simp
  · rw [key reg]
    cases hl : reg.lookup (md.afwType.getD "BASE") <;> simp
  · intro h
    obtain ⟨rr, hrr⟩ := reachable_lookup_base regs
    refine ⟨rr, ?_⟩
    rw [key (reachableRegistry regs)]
    rw [h]
    simp only [Option.getD_none]
    rw [hrr]

/-- C10 witness: metadata without `AFW_TYPE` on the registry after one
further registration resolves to a reader. -/
theorem fits_reader_lookup_witness :
    ∃ rr, FitsReader._lookupFitsReader
        (reachableRegistry [("EXTRA", ⟨1⟩)]) ⟨none⟩ = .ok rr :=
  (fits_reader_lookup ⟨none⟩ initialRegistry baseFitsReader
    [("EXTRA", ⟨1⟩)]).2.2 rfl

/-- C5: when filtering excludes every sample the engine still returns (it
is a total function, nothing is thrown): the result carries the
no-good-pixels flag and every requested statistic's value is reported as
NaN. -/
theorem no_good_samples_flagged (c : StatisticsControl) (req : List Property)
    (src : List Sample) (h : filterSamples c src = []) :
    (computeStatistics c req src).noGoodSamples = true ∧
      ∀ p ∈ req, (computeStatistics c req src).getValue p = .ok .nan := by
  have hre : computeStatistics c req src =
      { requested := req
        noGoodSamples := true
        npoint := 0
        npointclip := 0
        sum := none
        mean := none
        variance := none
        minval := none
        maxval := none
        median := none
        iqrange := none
        meanclip := none
        varianceclip := none } := by
    simp [computeStatistics, h, clipIterate_nil, wVariance, wTotal,
      sortedValues, medianOf, iqrangeOf, percentileOf, listMin, listMax,
      List.insertionSort]
  refine ⟨by rw [hre], ?_⟩
  intro p hp
  rw [hre]
  unfold StatisticsResult.getValue
  rw [if_pos (show p ∈ req from hp)]
  cases p <;> rfl

/-- C5 witness: a single sample carrying the excluded mask bit: the
filtered set is empty, the flag is set, and the requested MEAN is NaN. -/
theorem no_good_samples_flagged_witness :
    (computeStatistics { defaultStatisticsControl with andMask := 1 }
          [Property.MEAN] [⟨5, 1, none⟩]).noGoodSamples = true ∧
      (computeStatistics { defaultStatisticsControl with andMask := 1 }
          [Property.MEAN] [⟨5, 1, none⟩]).getValue .MEAN = .ok .nan :=
  ⟨(no_good_samples_flagged { defaultStatisticsControl with andMask := 1 }
      [Property.MEAN] [⟨5, 1, none⟩] (by decide)).1,
    (no_good_samples_flagged { defaultStatisticsControl with andMask := 1 }
      [Property.MEAN] [⟨5, 1, none⟩] (by decide)).2 .MEAN (by decide)⟩

/-- The control of the concrete scenario: defaults with clipping
disabled. -/
def c2control : StatisticsControl :=
  { defaultStatisticsControl with numIter := 0 }

/-- The value list `[1,2,3,4,5]`, unmasked and unweighted. -/
def c2samples : List Sample :=
  [⟨1, 0, none⟩, ⟨2, 0, none⟩, ⟨3, 0, none⟩, ⟨4, 0, none⟩, ⟨5, 0, none⟩]

/-- The statistics requested in the concrete scenario. -/
def c2props : List Property :=
  [.NPOINT, .MEAN, .VARIANCE, .STDEV, .MEDIAN, .MIN, .MAX]

/-- C2: on `[1,2,3,4,5]` with no masking, no weighting and clipping
disabled the engine reports NPOINT = 5, MEAN = 3, VARIANCE = 5/2 (sample
variance with divisor N−1), STDEV = √(5/2) (whose real value lies in
(1.5811, 1.5812), i.e. ≈ 1.5811), MEDIAN = 3, MIN = 1 and MAX = 5. -/
theorem concrete_one_to_five_stats :
    (computeStatistics c2control c2props c2samples).getValue .NPOINT =
        .ok (.val 5) ∧
      (computeStatistics c2control c2props c2samples).getValue .MEAN =
        .ok (.val 3) ∧
      (computeStatistics c2control c2props c2samples).getValue .VARIANCE =
        .ok (.val (5 / 2)) ∧
      (computeStatistics c2control c2props c2samples).getValue .STDEV =
        .ok (.sqrtVal (5 / 2)) ∧
      (StatVal.sqrtVal ((5 : ℚ) / 2)).toReal = some (Real.sqrt ((5 : ℝ) / 2)) ∧
      (1.5811 : ℝ) < Real.sqrt ((5 : ℝ) / 2) ∧
      Real.sqrt ((5 : ℝ) / 2) < 1.5812 ∧
      (computeStatistics c2control c2props c2samples).getValue .MEDIAN =
        .ok (.val 3) ∧
      (computeStatistics c2control c2props c2samples).getValue .MIN =
        .ok (.val 1) ∧
      (computeStatistics c2control c2props c2samples).getValue .MAX =
        .ok (.val 5) := by
  refine ⟨by decide, by decide, by decide, by decide, ?_, ?_, ?_,
    by decide, by decide, by decide⟩
  · show some ((((5 : ℚ) / 2 : ℚ) : ℝ)).sqrt = some (Real.sqrt ((5 : ℝ) / 2))
    norm_num
  · rw [Real.lt_sqrt (by norm_num)]
    norm_num
  · rw [Real.sqrt_lt' (by norm_num)]
    norm_num

theorem buildAux_length_le (seen : List String) (c : List AmpInfoRecord) :
    (buildAmpNameMapAux seen c).length ≤ c.length := by
  induction c generalizing seen with
  | nil => simp [buildAmpNameMapAux]
  | cons a rest ih =>
    unfold buildAmpNameMapAux
    by_cases h : a.name ∈ seen
    · rw [if_pos h]
      exact le_trans (ih seen) (Nat.le_succ _)
    · rw [if_neg h]
      simpa using ih (a.name :: seen)

theorem buildAux_length_eq_iff (seen : List String) (c : List AmpInfoRecord) :
    (buildAmpNameMapAux seen c).length = c.length ↔
      ((c.map AmpInfoRecord.name).Nodup ∧ ∀ a ∈ c, a.name ∉ seen) := by
  induction c generalizing seen with
  | nil => simp [buildAmpNameMapAux]
  | cons a rest ih =>
    unfold buildAmpNameMapAux
    by_cases h : a.name ∈ seen
    · rw [if_pos h]
      have hle := buildAux_length_le seen rest
      constructor
      · intro he
        exact absurd he (by simp only [List.length_cons]; omega)
      · rintro ⟨-, hall⟩
        exact absurd h (hall a (List.mem_cons_self a rest))
    · rw [if_neg h]
      simp only [List.length_cons, add_left_inj]
      rw [ih (a.name :: seen)]
      constructor
      · rintro ⟨hnd, hall⟩
        have hall' : ∀ b ∈ rest, b.name ≠ a.name ∧ b.name ∉ seen := by
          intro b hb
          have := hall b hb
          simp only [List.mem_cons, not_or] at this
          exact this
        refine ⟨?_, ?_⟩
        · rw [List.map_cons, List.nodup_cons]
          refine ⟨fun hmem => ?_, hnd⟩
          obtain ⟨b, hb, hbn⟩ := List.mem_map.mp hmem
          exact (hall' b hb).1 hbn
        · intro b hb
          rcases List.mem_cons.mp hb with rfl | hb'
          · exact h
          · exact (hall' b hb').2
      · rintro ⟨hnd, hall⟩
        rw [List.map_cons, List.nodup_cons] at hnd
        refine ⟨hnd.2, ?_⟩
        intro b hb
        simp only [List.mem_cons, not_or]
        exact ⟨fun he => hnd.1 (List.mem_map.mpr ⟨b, hb, he⟩),
          hall b (List.mem_cons_of_mem _ hb)⟩

theorem buildAux_lookup (seen : List String) (c : List AmpInfoRecord)
    (hnd : (c.map AmpInfoRecord.name).Nodup)
    (hd : ∀ a ∈ c, a.name ∉ seen) :
    ∀ a ∈ c, (buildAmpNameMapAux seen c).lookup a.name = some a := by
  induction c generalizing seen with
  | nil => simp
  | cons a rest ih =>
    rw [List.map_cons, List.nodup_cons] at hnd
    have hnd' := hnd
    intro b hb
    unfold buildAmpNameMapAux
    rw [if_neg (hd a (List.mem_cons_self a rest))]
    rcases List.mem_cons.mp hb with rfl | hb'
    · simp [List.lookup]
    · have hne : b.name ≠ a.name := by
        intro he
        exact hnd'.1 (List.mem_map.mpr ⟨b, hb', he⟩)
      simp only [List.lookup]
      rw [show (b.name == a.name) = false from beq_eq_false_iff_ne.mpr hne]
      refine ih (a.name :: seen) hnd'.2 ?_ b hb'
      intro x hx
      simp only [List.mem_cons, not_or]
      exact ⟨fun he => hnd'.1 (List.mem_map.mpr ⟨x, hx, he⟩),
        hd x (List.mem_cons_of_mem _ hx)⟩

/-- C8: the `Detector` constructor throws `InvalidParameterError` exactly
when two amplifiers of the catalog share a name, or a non-empty crosstalk
matrix is not square, or its side differs from the number of amplifiers;
on success the name→record map holds exactly one entry per amplifier of
the catalog, each name resolving to its record. -/
theorem detector_ctor_validation (name : String) (id : Int) (serial : String)
    (catalog : List AmpInfoRecord) (xt : CrosstalkMatrix) :
    (mkDetector name id serial catalog xt = .error .invalidParameterError ↔
        (¬ (catalog.map AmpInfoRecord.name).Nodup ∨
          (hasCrosstalk xt = true ∧
            (xt.shape0 ≠ xt.shape1 ∨ xt.shape0 ≠ catalog.length)))) ∧
      ∀ d, mkDetector name id serial catalog xt = .ok d →
        d.ampNameIterMap.length = catalog.length ∧
        ∀ a ∈ catalog, d.ampNameIterMap.lookup a.name = some a := by
  have hlen : (buildAmpNameMap catalog).length = catalog.length ↔
      (catalog.map AmpInfoRecord.name).Nodup := by
    rw [buildAmpNameMap, buildAux_length_eq_iff]
    simp
  unfold mkDetector
  by_cases h1 : (buildAmpNameMap catalog).length ≠ catalog.length
  · rw [if_pos h1]
    refine ⟨⟨fun _ => Or.inl (fun hnd => h1 (hlen.mpr hnd)), fun _ => rfl⟩, ?_⟩
    intro d hok
    exact absurd hok (by simp)
  · rw [if_neg h1]
    have hnd : (catalog.map AmpInfoRecord.name).Nodup :=
      hlen.mp (not_not.mp h1)
    by_cases h2 : hasCrosstalk xt = true ∧ xt.shape0 ≠ xt.shape1
    · rw [if_pos h2]
      refine ⟨⟨fun _ => Or.inr ⟨h2.1, Or.inl h2.2⟩, fun _ => rfl⟩, ?_⟩
      intro d hok
      exact absurd hok (by simp)
    · rw [if_neg h2]
      by_cases h3 : hasCrosstalk xt = true ∧ xt.shape0 ≠ catalog.length
      · rw [if_pos h3]
        refine ⟨⟨fun _ => Or.inr ⟨h3.1, Or.inr h3.2⟩, fun _ => rfl⟩, ?_⟩
        intro d hok
        exact absurd hok (by simp)
      · rw [if_neg h3]
        constructor
        · constructor
          · intro he
            exact absurd he (by simp)
          · rintro (hbad | ⟨hc, hor⟩)
            · exact absurd hnd hbad
            · rcases hor with hne | hne
              · exact absurd ⟨hc, hne⟩ h2
              · exact absurd ⟨hc, hne⟩ h3
        · intro d hok
          have hd : d = ⟨name, id, serial, catalog, buildAmpNameMap catalog, xt⟩ := by
            cases hok
            rfl
          subst hd
          refine ⟨not_not.mp h1, ?_⟩
          exact buildAux_lookup [] catalog hnd (by simp)

theorem listMin_spec (l : List ℚ) (h : l ≠ []) :
    ∃ m, listMin l = some m ∧ m ∈ l ∧ ∀ y ∈ l, m ≤ y := by
  induction l with
  | nil => exact absurd rfl h
  | cons x xs ih =>
    by_cases hxs : xs = []
    · subst hxs
      refine ⟨x, rfl, List.mem_cons_self _ _, ?_⟩
      intro y hy
      rcases List.mem_cons.mp hy with rfl | hy'
      · exact le_refl _
      · simp at hy'
    · obtain ⟨m, hm, hmem, hle⟩ := ih hxs
      refine ⟨min x m, ?_, ?_, ?_⟩
      · unfold listMin
        rw [hm]
      · rcases le_total x m with hxm | hmx
        · rw [min_eq_left hxm]
          exact List.mem_cons_self _ _
        · rw [min_eq_right hmx]
          exact List.mem_cons_of_mem _ hmem
      · intro y hy
        rcases List.mem_cons.mp hy with rfl | hy'
        · exact min_le_left _ _
        · exact le_trans (min_le_right _ _) (hle y hy')

theorem listMax_spec (l : List ℚ) (h : l ≠ []) :
    ∃ m, listMax l = some m ∧ m ∈ l ∧ ∀ y ∈ l, y ≤ m := by
  induction l with
  | nil => exact absurd rfl h
  | cons x xs ih =>
    by_cases hxs : xs = []
    · subst hxs
      refine ⟨x, rfl, List.mem_cons_self _ _, ?_⟩
      intro y hy
      rcases List.mem_cons.mp hy with rfl | hy'
      · exact le_refl _
      · simp at hy'
    · obtain ⟨m, hm, hmem, hle⟩ := ih hxs
      refine ⟨max x m, ?_, ?_, ?_⟩
      · unfold listMax
        rw [hm]
      · rcases le_total x m with hxm | hmx
        · rw [max_eq_right hxm]
          exact List.mem_cons_of_mem _ hmem
        · rw [max_eq_left hmx]
          exact List.mem_cons_self _ _
      · intro y hy
        rcases List.mem_cons.mp hy with rfl | hy'
        · exact le_max_left _ _
        · exact le_trans (hle y hy') (le_max_right _ _)

theorem sampleWeight_pos (c : StatisticsControl) (s : Sample) :
    0 < sampleWeight c s := by
  unfold sampleWeight
  by_cases hw : c.weighted
  · rw [if_pos hw]
    cases hv : s.variance with
    | none => norm_num
    | some v =>
      show (0 : ℚ) < if v ≤ 0 then 1 else 1 / v
      by_cases hv0 : v ≤ 0
      · rw [if_pos hv0]
        norm_num
      · rw [if_neg hv0]
        exact div_pos one_pos (lt_of_not_le hv0)
  · rw [if_neg hw]
    norm_num

theorem filterSamples_weights_pos (c : StatisticsControl) (src : List Sample) :
    ∀ p ∈ filterSamples c src, 0 < p.2 := by
  intro p hp
  unfold filterSamples at hp
  obtain ⟨s, hs, rfl⟩ := List.mem_map.mp hp
  exact sampleWeight_pos c s

theorem wTotal_pos (l : List (ℚ × ℚ)) (hw : ∀ p ∈ l, 0 < p.2)
    (hl : l ≠ []) : 0 < wTotal l := by
  induction l with
  | nil => exact absurd rfl hl
  | cons p ps ih =>
    have h1 := hw p (List.mem_cons_self _ _)
    show 0 < wTotal (p :: ps)
    unfold wTotal
    simp only [List.map_cons, List.sum_cons]
    by_cases hps : ps = []
    · subst hps
      simpa using h1
    · have h2 := ih (fun r hr => hw r (List.mem_cons_of_mem _ hr)) hps
      unfold wTotal at h2
      exact add_pos h1 h2

theorem le_wSum (l : List (ℚ × ℚ)) (a : ℚ) (hw : ∀ p ∈ l, 0 < p.2)
    (ha : ∀ p ∈ l, a ≤ p.1) : a * wTotal l ≤ wSum l := by
  induction l with
  | nil => simp [wSum, wTotal]
  | cons p ps ih =>
    have h1 : a * p.2 ≤ p.2 * p.1 := by
      rw [mul_comm a p.2]
      exact mul_le_mul_of_nonneg_left (ha p (List.mem_cons_self _ _))
        (le_of_lt (hw p (List.mem_cons_self _ _)))
    have h2 := ih (fun r hr => hw r (List.mem_cons_of_mem _ hr))
      (fun r hr => ha r (List.mem_cons_of_mem _ hr))
    show a * wTotal (p :: ps) ≤ wSum (p :: ps)
    unfold wTotal wSum at *
    simp only [List.map_cons, List.sum_cons]
    rw [mul_add]
    exact add_le_add h1 h2

theorem wSum_le (l : List (ℚ × ℚ)) (b : ℚ) (hw : ∀ p ∈ l, 0 < p.2)
    (hb : ∀ p ∈ l, p.1 ≤ b) : wSum l ≤ b * wTotal l := by
  induction l with
  | nil => simp [wSum, wTotal]
  | cons p ps ih =>
    have h1 : p.2 * p.1 ≤ b * p.2 := by
      rw [mul_comm b p.2]
      exact mul_le_mul_of_nonneg_left (hb p (List.mem_cons_self _ _))
        (le_of_lt (hw p (List.mem_cons_self _ _)))
    have h2 := ih (fun r hr => hw r (List.mem_cons_of_mem _ hr))
      (fun r hr => hb r (List.mem_cons_of_mem _ hr))
    show wSum (p :: ps) ≤ b * wTotal (p :: ps)
    unfold wTotal wSum at *
    simp only [List.map_cons, List.sum_cons]
    rw [mul_add]
    exact add_le_add h1 h2

theorem wMean_bounds (l : List (ℚ × ℚ)) (a b : ℚ)
    (hw : ∀ p ∈ l, 0 < p.2) (hl : l ≠ [])
    (hab : ∀ p ∈ l, a ≤ p.1 ∧ p.1 ≤ b) :
    a ≤ wMean l ∧ wMean l ≤ b := by
  have ht := wTotal_pos l hw hl
  unfold wMean
  constructor
  · rw [le_div_iff₀ ht]
    exact le_wSum l a hw (fun p hp => (hab p hp).1)
  · rw [div_le_iff₀ ht]
    exact wSum_le l b hw (fun p hp => (hab p hp).2)

theorem medianOf_bounds (s : List ℚ) (a b : ℚ) (hs : s ≠ [])
    (hab : ∀ x ∈ s, a ≤ x ∧ x ≤ b) :
    ∃ md, medianOf s = some md ∧ a ≤ md ∧ md ≤ b := by
  unfold medianOf
  by_cases hodd : s.length % 2 = 1
  · rw [if_pos hodd]
    have hlt : s.length / 2 < s.length :=
      Nat.div_lt_self (List.length_pos.mpr hs) one_lt_two
    rw [List.getElem?_eq_getElem hlt]
    have hm := hab _ (List.getElem_mem hlt)
    exact ⟨_, rfl, hm.1, hm.2⟩
  · rw [if_neg hodd]
    have hlen : s.length ≠ 0 := fun h0 => hs (List.length_eq_zero.mp h0)
    have h2 : 2 ≤ s.length := by omega
    have hlt1 : s.length / 2 - 1 < s.length := by omega
    have hlt2 : s.length / 2 < s.length := by omega
    rw [List.getElem?_eq_getElem hlt1, List.getElem?_eq_getElem hlt2]
    have hm1 := hab _ (List.getElem_mem hlt1)
    have hm2 := hab _ (List.getElem_mem hlt2)
    refine ⟨_, rfl, ?_, ?_⟩
    · have := hm1.1
      have := hm2.1
      linarith
    · have := hm1.2
      have := hm2.2
      linarith

/-- C4: on every non-empty filtered sample set — any masking, any weights
— the engine's MIN, MAX, MEDIAN and (weighted) MEAN are defined and
satisfy MIN ≤ MEDIAN ≤ MAX and MIN ≤ MEAN ≤ MAX. -/
theorem stats_bounded_by_min_max (c : StatisticsControl) (req : List Property)
    (src : List Sample) (h : filterSamples c src ≠ []) :
    ∃ mn mx md me,
      (computeStatistics c req src).minval = some mn ∧
      (computeStatistics c req src).maxval = some mx ∧
      (computeStatistics c req src).median = some md ∧
      (computeStatistics c req src).mean = some me ∧
      mn ≤ md ∧ md ≤ mx ∧ mn ≤ me ∧ me ≤ mx := by
  have hvals : (filterSamples c src).map Prod.fst ≠ [] := by
    intro h0
    exact h (List.map_eq_nil_iff.mp h0)
  obtain ⟨mn, hmn, hmnmem, hmnle⟩ := listMin_spec _ hvals
  obtain ⟨mx, hmx, hmxmem, hmxge⟩ := listMax_spec _ hvals
  have hw := filterSamples_weights_pos c src
  have hme : mn ≤ wMean (filterSamples c src) ∧
      wMean (filterSamples c src) ≤ mx := by
    refine wMean_bounds _ mn mx hw h ?_
    intro p hp
    have hpmem : p.1 ∈ (filterSamples c src).map Prod.fst :=
      List.mem_map.mpr ⟨p, hp, rfl⟩
    exact ⟨hmnle _ hpmem, hmxge _ hpmem⟩
  have hperm : (sortedValues (filterSamples c src)).Perm
      ((filterSamples c src).map Prod.fst) :=
    List.perm_insertionSort _ _
  have hsne : sortedValues (filterSamples c src) ≠ [] := by
    intro h0
    rw [h0] at hperm
    exact hvals (hperm.nil_eq.symm)
  obtain ⟨md, hmd, hmd1, hmd2⟩ := medianOf_bounds
    (sortedValues (filterSamples c src)) mn mx hsne
    (fun x hx => ⟨hmnle _ (hperm.subset hx), hmxge _ (hperm.subset hx)⟩)
  have hne : (filterSamples c src).isEmpty = false := by
    rcases List.exists_cons_of_ne_nil h with ⟨p, ps, hcons⟩
    rw [hcons]
    rfl
  have hmean : (computeStatistics c req src).mean =
      some (wMean (filterSamples c src)) := by
    show (if (filterSamples c src).isEmpty then none
      else some (wMean (filterSamples c src))) = _
    rw [hne]
    rfl
  exact ⟨mn, mx, md, wMean (filterSamples c src), hmn, hmx, hmd, hmean,
    hmd1, hmd2, hme.1, hme.2⟩

/-- C4 witness: a singleton unmasked sample yields defined MIN, MAX,
MEDIAN, MEAN in the stated order. -/
theorem stats_bounded_by_min_max_witness :
    ∃ mn mx md me,
      (computeStatistics defaultStatisticsControl [] [⟨1, 0, none⟩]).minval =
        some mn ∧
      (computeStatistics defaultStatisticsControl [] [⟨1, 0, none⟩]).maxval =
        some mx ∧
      (computeStatistics defaultStatisticsControl [] [⟨1, 0, none⟩]).median =
        some md ∧
      (computeStatistics defaultStatisticsControl [] [⟨1, 0, none⟩]).mean =
        some me ∧
      mn ≤ md ∧ md ≤ mx ∧ mn ≤ me ∧ me ≤ mx :=
  stats_bounded_by_min_max defaultStatisticsControl [] [⟨1, 0, none⟩]
    (by decide)

/-- A two-amplifier catalog with distinct names used in the constructor
witness. -/
def ampCatalogAB : List AmpInfoRecord := [⟨"A", 0⟩, ⟨"B", 1⟩]

/-- C8 witness: with distinct names and a square 2×2 crosstalk matrix the
constructor succeeds and its map resolves both names; with a duplicated
name it throws `InvalidParameterError`. -/
theorem detector_ctor_validation_witness :
    ((buildAmpNameMap ampCatalogAB).length = ampCatalogAB.length ∧
        ∀ a ∈ ampCatalogAB,
          (buildAmpNameMap ampCatalogAB).lookup a.name = some a) ∧
      mkDetector "det" 1 "ser" [⟨"A", 0⟩, ⟨"A", 1⟩] ⟨0, 0⟩ =
        .error .invalidParameterError :=
  ⟨(detector_ctor_validation "det" 1 "ser" ampCatalogAB ⟨2, 2⟩).2
      ⟨"det", 1, "ser", ampCatalogAB, buildAmpNameMap ampCatalogAB, ⟨2, 2⟩⟩
      (by decide),
    (detector_ctor_validation "det" 1 "ser" [⟨"A", 0⟩, ⟨"A", 1⟩] ⟨0, 0⟩).1.mpr
      (Or.inl (by decide))⟩

end Afw
